import Mathlib

/-!
# Verification of the react-3d-slideshow transition engine

Shallow embedding, in Lean 4, of the animation engine of the
`react-3d-slideshow` repository: the per-style transition state machines
(cube, cascade, glitch), the cover-fit calculator, the cascade grid sizing,
the frame-scheduler progress accumulation, the `useSlideshow` control
surface and the WebGL fallback presentation.

JavaScript numbers are modelled as rationals (`ℚ`); slide indices as `ℕ`;
angles as rational multiples of π (so `1/2` stands for `π/2`).  Stateful
React refs become explicit state records, and the `useFrame` / `useEffect`
callbacks become pure state-transition functions.
-/

namespace Slideshow

/-- Cubic ease-in-out, from `easeInOutCubic` in `CubeTransition.tsx` (both
variants) and `CascadeTransition.tsx`:
`t < 0.5 ? 4 * t * t * t : 1 - Math.pow(-2 * t + 2, 3) / 2`. -/
def easeInOutCubic (t : ℚ) : ℚ :=
  if t < 1/2 then 4 * t * t * t else 1 - (-2 * t + 2) ^ 3 / 2

/-- Result record of `calculateCoverUV` (cube variant and `part_005`):
UV crop scale and offset reproducing CSS `object-fit: cover`. -/
structure CoverUV where
  scaleU : ℚ
  scaleV : ℚ
  offsetU : ℚ
  offsetV : ℚ
  deriving DecidableEq, Repr

/-- `calculateCoverUV(imageAspect, targetAspect)` from `CubeTransition.tsx`
(second variant) and `part_005`:
if `imageAspect > targetAspect` crop the sides
(`scaleU = targetAspect/imageAspect`, `offsetU = (1-scaleU)/2`),
otherwise crop top/bottom with the roles of U and V swapped. -/
def calculateCoverUV (imageAspect targetAspect : ℚ) : CoverUV :=
  if imageAspect > targetAspect then
    { scaleU := targetAspect / imageAspect
      scaleV := 1
      offsetU := (1 - targetAspect / imageAspect) / 2
      offsetV := 0 }
  else
    { scaleU := 1
      scaleV := imageAspect / targetAspect
      offsetU := 0
      offsetV := (1 - imageAspect / targetAspect) / 2 }

/-- JavaScript `Math.round` on nonnegative numbers: round half up. -/
def jsRound (q : ℚ) : ℤ := ⌊q + 1/2⌋

/-- Grid dimension record returned by `calculateGridDimensions`. -/
structure GridDims where
  rows : ℤ
  cols : ℤ
  deriving DecidableEq, Repr

/-- `calculateGridDimensions(aspectRatio, minTiles)` from
`CascadeTransition.tsx` lines 17-31: `safeTiles = max(2, minTiles)`;
landscape (`aspectRatio >= 1`) gives `rows = safeTiles`,
`cols = max(2, round(safeTiles * aspectRatio))`; portrait gives
`cols = safeTiles`, `rows = max(2, round(safeTiles / aspectRatio))`. -/
def calculateGridDimensions (aspectRatio : ℚ) (minTiles : ℤ) : GridDims :=
  let safeTiles : ℤ := max 2 minTiles
  if 1 ≤ aspectRatio then
    { rows := safeTiles
      cols := max 2 (jsRound ((safeTiles : ℚ) * aspectRatio)) }
  else
    { rows := max 2 (jsRound ((safeTiles : ℚ) / aspectRatio))
      cols := safeTiles }

/-- Per-frame progress update of the cube machine (`CubeTransition.tsx`,
second variant, lines 615-616):
`speed = (1 / transitionDuration) * 1000;`
`progress = Math.min(progress + delta * speed, 1)`. -/
def cubeProgressUpdate (transitionDuration progress delta : ℚ) : ℚ :=
  min (progress + delta * ((1 / transitionDuration) * 1000)) 1

/-- The cascade animation speed constant `ANIMATION_SPEED = 1.5`. -/
def ANIMATION_SPEED : ℚ := 3/2

/-- Per-frame progress update of the cascade machine
(`CascadeTransition.tsx` lines 308-314):
`speed = ANIMATION_SPEED * (1000 / transitionDuration) * 0.8;`
`progress = Math.min(progress + delta * speed, 1)`. -/
def cascadeProgressUpdate (transitionDuration progress delta : ℚ) : ℚ :=
  min (progress + delta * (ANIMATION_SPEED * (1000 / transitionDuration) * (4/5))) 1

/-! ## Glitch shader texture selection

Two glitch implementations exist in the repository.  The feature-complete
variant (`part_005` with the fragment shader `part_015`) drives a
`uShowNext` uniform and selects one texture discretely; the simpler
`GlitchTransition.tsx` embeds a shader that crossfades with
`mix(currentColor, nextColor, uProgress)`.  Colors are modelled one channel
at a time as rationals. -/

/-- `uShowNext` computation in `part_005` lines 207-211:
`const showNext = progress >= 0.5 ? 1 : 0`. -/
def glitchShowNext (progress : ℚ) : ℚ :=
  if progress ≥ 1/2 then 1 else 0

/-- Base-color selection of the feature-complete glitch fragment shader
(`part_015` lines 85-87):
`vec3 baseColor = uShowNext < 0.5 ? currentColor : nextColor`. -/
def glitchBaseColor (uShowNext currentColor nextColor : ℚ) : ℚ :=
  if uShowNext < 1/2 then currentColor else nextColor

/-- Color output of the simpler `GlitchTransition.tsx` fragment shader
(lines 50-55): `vec3 color = mix(currentColor, nextColor, uProgress)`,
where GLSL `mix(a, b, t) = a * (1 - t) + b * t`. -/
def glitchMixColor (currentColor nextColor uProgress : ℚ) : ℚ :=
  currentColor * (1 - uProgress) + nextColor * uProgress

/-! ## The `useSlideshow` control surface (`part_008`) -/

/-- Navigation direction as exposed by `useSlideshow`
(`'next' | 'prev'`). -/
inductive NavDirection where
  | next
  | prev
  deriving DecidableEq, Repr

/-- Authoritative state of the `useSlideshow` hook: the `currentIndex` and
`direction` React states (`part_008` lines 23-25). -/
structure HookState where
  currentIndex : ℕ
  direction : NavDirection
  deriving DecidableEq, Repr

/-- `canGoNext = loop || currentIndex < totalSlides - 1`
(`part_008` line 30). -/
def canGoNext (loop : Bool) (totalSlides : ℕ) (s : HookState) : Bool :=
  loop || decide (s.currentIndex < totalSlides - 1)

/-- `canGoPrev = loop || currentIndex > 0` (`part_008` line 31). -/
def canGoPrev (loop : Bool) (s : HookState) : Bool :=
  loop || decide (0 < s.currentIndex)

/-- `next()` from `part_008` lines 33-40: no-op when `canGoNext` is false,
otherwise set `direction = 'next'` and
`currentIndex = currentIndex >= totalSlides - 1 ? 0 : currentIndex + 1`. -/
def hookNext (loop : Bool) (totalSlides : ℕ) (s : HookState) : HookState :=
  if canGoNext loop totalSlides s then
    { currentIndex := if s.currentIndex ≥ totalSlides - 1 then 0 else s.currentIndex + 1
      direction := NavDirection.next }
  else s

/-- `prev()` from `part_008` lines 42-49: no-op when `canGoPrev` is false,
otherwise set `direction = 'prev'` and
`currentIndex = currentIndex <= 0 ? totalSlides - 1 : currentIndex - 1`. -/
def hookPrev (loop : Bool) (totalSlides : ℕ) (s : HookState) : HookState :=
  if canGoPrev loop s then
    { currentIndex := if s.currentIndex ≤ 0 then totalSlides - 1 else s.currentIndex - 1
      direction := NavDirection.prev }
  else s

/-- `goTo(index)` from `part_008` lines 51-58: silently ignored when
`index < 0 || index >= totalSlides`, otherwise set
`direction = index > currentIndex ? 'next' : 'prev'` and jump.  The raw
request index is an arbitrary integer. -/
def hookGoTo (totalSlides : ℕ) (index : ℤ) (s : HookState) : HookState :=
  if index < 0 ∨ (totalSlides : ℤ) ≤ index then s
  else
    { currentIndex := index.toNat
      direction := if (s.currentIndex : ℤ) < index then NavDirection.next
                   else NavDirection.prev }

/-- Whether a request changed `currentIndex`; the hook's
`useEffect(() => onSlideChange?.(currentIndex), [currentIndex])`
(`part_008` lines 70-72) fires `onSlideChange` exactly when it did. -/
def firesOnSlideChange (before after : HookState) : Bool :=
  decide (after.currentIndex ≠ before.currentIndex)

/-! ## WebGL capability gate and fallback presentation -/

/-- Outcome of the mount-time capability effect in `Slideshow.tsx`
lines 69-80: component state starts `webglAvailable = true`,
`isLoading = true`; the one-shot mount effect stores the probed support
flag, and when unsupported clears the loading flag and invokes
`onWebGLUnsupported` (counted here). -/
structure MountResult where
  webglAvailable : Bool
  isLoading : Bool
  unsupportedCalls : ℕ
  deriving DecidableEq, Repr

/-- The mount effect of `Slideshow.tsx` lines 73-80, as a function of the
capability gate's verdict `supported = isWebGLSupported()`. -/
def slideshowMountEffect (supported : Bool) : MountResult :=
  if supported then
    { webglAvailable := true, isLoading := true, unsupportedCalls := 0 }
  else
    { webglAvailable := false, isLoading := false, unsupportedCalls := 1 }

/-- Style computed for one fallback slide (`part_013` lines 63-66):
`isActive = index === currentIndex`, `opacity = isActive ? 1 : 0`,
`zIndex = isActive ? 1 : 0`. -/
structure RenderedSlide where
  opacity : ℚ
  zIndex : ℕ
  deriving DecidableEq, Repr

/-- One slide of `FallbackSlideshow` (`part_013` lines 63-66). -/
def renderFallbackSlide (currentIndex index : ℕ) : RenderedSlide :=
  if index = currentIndex then { opacity := 1, zIndex := 1 }
  else { opacity := 0, zIndex := 0 }

/-- `FallbackSlideshow` renders `slides.map(...)` in order
(`part_013` line 63): the list of per-slide computed styles. -/
def renderFallback (numSlides currentIndex : ℕ) : List RenderedSlide :=
  (List.range numSlides).map (renderFallbackSlide currentIndex)

/-! ## The shared single-step transition machine (cube second variant and
cascade)

Both feature-complete machines keep `displayedIndexRef`, `targetIndexRef`,
`animationDirectionRef`, a progress accumulator and an `isAnimating` flag,
advance one slide at a time toward the target, commit `displayedIndex` when
`progress` reaches 1, and immediately start the next step while
`displayedIndex !== targetIndex`. -/

/-- Internal animation direction (`'forward' | 'backward'`). -/
inductive AnimDir where
  | forward
  | backward
  deriving DecidableEq, Repr

/-- One index step in a direction, modulo the slide count:
`(displayed + 1) % slides.length` forward and
`(displayed - 1 + slides.length) % slides.length` backward. -/
def stepIndex (n : ℕ) (d : AnimDir) (i : ℕ) : ℕ :=
  match d with
  | AnimDir.forward => (i + 1) % n
  | AnimDir.backward => (i + n - 1) % n

/-- State of the cube machine (`CubeTransition.tsx`, second variant):
index bookkeeping refs, the animation state ref (`isAnimating`, `progress`,
`rotationAxis`, `rotationAngle`), and the render-graph fields the machine
mutates (pivot rotation, plane textures, next-plane visibility).  Angles
are rational multiples of π; `rotAxisX = true` encodes rotation axis
`(1,0,0)` and `false` encodes `(0,1,0)`. -/
structure CubeState where
  displayed : ℕ
  target : ℕ
  dir : AnimDir
  progress : ℚ
  animating : Bool
  rotAxisX : Bool
  rotAngle : ℚ
  pivotRotX : ℚ
  pivotRotY : ℚ
  currentPlaneTex : ℕ
  nextPlaneTex : ℕ
  nextPlaneVisible : Bool
  deriving DecidableEq, Repr

/-- `startNextTransition` of the cube machine (`CubeTransition.tsx` lines
514-590): bail out when `displayed === target`; otherwise compute
`nextIndex` one step toward the target, choose rotation axis and angle from
the parity of `nextIndex` (`targetIsEven`) and the direction, reset the
pivot, position the planes, assign textures, and begin the step with
`progress = 0`. -/
def cubeStartNextTransition (n : ℕ) (s : CubeState) : CubeState :=
  if s.displayed = s.target then s
  else
    let nextIndex := stepIndex n s.dir s.displayed
    let targetIsEven := nextIndex % 2 = 0
    let isForward := s.dir = AnimDir.forward
    let axisX : Bool := targetIsEven
    let angle : ℚ :=
      if isForward then (if targetIsEven then 1/2 else -(1/2))
      else (if targetIsEven then -(1/2) else 1/2)
    { s with
      rotAxisX := axisX
      rotAngle := angle
      pivotRotX := 0
      pivotRotY := 0
      currentPlaneTex := s.displayed
      nextPlaneTex := nextIndex
      nextPlaneVisible := true
      animating := true
      progress := 0 }

/-- The slide-change `useEffect` shared by the cube second variant
(`CubeTransition.tsx` lines 593-600) and the cascade machine
(`CascadeTransition.tsx` lines 246-253): when the incoming `currentIndex`
differs from `targetIndexRef`, store it as the new target and record the
requested direction; it touches nothing else. -/
def retarget (newTarget : ℕ) (d : AnimDir) (s : CubeState) : CubeState :=
  if newTarget ≠ s.target then { s with target := newTarget, dir := d } else s

/-- The progress value the cube `useFrame` computes on a frame: the
accumulator starts from the in-flight `progress` (or from the `0` a
just-started transition was given) and advances by
`delta * (1 / transitionDuration) * 1000`, clamped at 1. -/
def cubeFrameProgress (duration delta : ℚ) (s : CubeState) : ℚ :=
  cubeProgressUpdate duration (if s.animating then s.progress else 0) delta

/-- The cube `useFrame` callback (`CubeTransition.tsx` lines 603-655).
When idle it starts a step if `displayed !== target`, else returns.  While
animating it clamps `progress`, applies the eased rotation to the pivot,
and at `progress >= 1` commits `displayed` one step in the current
animation direction, resets the pivot and planes to the rest pose, and
immediately starts the next step when the target has not been reached. -/
def cubeUseFrame (n : ℕ) (duration delta : ℚ) (s : CubeState) : CubeState :=
  let s1 := if s.animating then s
            else if s.displayed ≠ s.target then cubeStartNextTransition n s else s
  if s1.animating then
    let p := cubeProgressUpdate duration s1.progress delta
    let t := easeInOutCubic p
    let angle := s1.rotAngle * t
    let s2 := { s1 with
                progress := p
                pivotRotX := if s1.rotAxisX then angle else 0
                pivotRotY := if s1.rotAxisX then 0 else angle }
    if 1 ≤ p then
      let d := stepIndex n s2.dir s2.displayed
      let s3 := { s2 with
                  displayed := d
                  animating := false
                  pivotRotX := 0
                  pivotRotY := 0
                  currentPlaneTex := d
                  nextPlaneVisible := false }
      if s3.displayed ≠ s3.target then cubeStartNextTransition n s3 else s3
    else s2
  else s1

/-- State of the cascade machine (`CascadeTransition.tsx`): index
bookkeeping plus the texture assignment the machine mutates (`sideTex` is
the map of the `+X`/`-X` face materials, `allTex` the map of the remaining
faces showing the displayed slide). -/
structure CascadeState where
  displayed : ℕ
  target : ℕ
  dir : AnimDir
  progress : ℚ
  animating : Bool
  sideTex : ℕ
  allTex : ℕ
  deriving DecidableEq, Repr

/-- `startNextTransition` of the cascade machine (`CascadeTransition.tsx`
lines 256-288): bail out when `displayed === target`; otherwise compute
`nextIndex` one step toward the target, point the side-face materials at
its texture, and begin the step with `progress = 0`. -/
def cascadeStartNextTransition (n : ℕ) (s : CascadeState) : CascadeState :=
  if s.displayed = s.target then s
  else
    let nextIndex := stepIndex n s.dir s.displayed
    { s with sideTex := nextIndex, progress := 0, animating := true }

/-- The cascade slide-change `useEffect` (`CascadeTransition.tsx` lines
246-253), identical in shape to the cube one. -/
def cascadeRetarget (newTarget : ℕ) (d : AnimDir) (s : CascadeState) : CascadeState :=
  if newTarget ≠ s.target then { s with target := newTarget, dir := d } else s

/-- The progress value the cascade `useFrame` computes on a frame. -/
def cascadeFrameProgress (duration delta : ℚ) (s : CascadeState) : ℚ :=
  cascadeProgressUpdate duration (if s.animating then s.progress else 0) delta

/-- The cascade `useFrame` callback (`CascadeTransition.tsx` lines
291-387).  When idle it starts a step if `displayed !== target`, else
returns.  While animating it clamps `progress`; at `progress >= 1` it
commits `displayed` one step in the current animation direction, retextures
every face with the new slide, resets rotation, sets `progress = 0` and
`isAnimating = false`, and immediately starts the next step when the target
has not been reached.  (Per-tile rotation is a pure function of the grid
position and `progress` and does not feed back into this state.) -/
def cascadeUseFrame (n : ℕ) (duration delta : ℚ) (s : CascadeState) : CascadeState :=
  let s1 := if s.animating then s
            else if s.displayed ≠ s.target then cascadeStartNextTransition n s else s
  if s1.animating then
    let p := cascadeProgressUpdate duration s1.progress delta
    if 1 ≤ p then
      let d := stepIndex n s1.dir s1.displayed
      let s3 := { s1 with
                  displayed := d
                  allTex := d
                  sideTex := d
                  progress := 0
                  animating := false }
      if s3.displayed ≠ s3.target then cascadeStartNextTransition n s3 else s3
    else { s1 with progress := p }
  else s1

/-- Directed index distance: the number of single steps the machine takes
from `displayed` to `target` in direction `d` modulo `n`. -/
def distToward (n : ℕ) (d : AnimDir) (displayed target : ℕ) : ℕ :=
  match d with
  | AnimDir.forward => (n + target - displayed) % n
  | AnimDir.backward => (n + displayed - target) % n

/-- A machine is settled when no further frame changes it: it is not
animating and the displayed slide is the target. -/
def CubeState.settled (s : CubeState) : Prop :=
  s.animating = false ∧ s.displayed = s.target

/-- Settledness for the cascade machine. -/
def CascadeState.settled (s : CascadeState) : Prop :=
  s.animating = false ∧ s.displayed = s.target

/-! ## The first cube variant: step-parity counter

The first `CubeTransition.tsx` variant (lines 25-316) keeps a mutable
`stepRef` parity counter; its slide-change `useEffect` (lines 233-270)
chooses the target rotation of the whole cube group from the counter's
parity and the direction, increments the counter on forward steps and
decrements it on backward steps only while it is positive. -/

/-- State touched by the first-variant slide-change handler: the `stepRef`
counter and the `animStateRef` fields (`targetRotation`, `isAnimating`,
`progress`).  Angles are rational multiples of π. -/
structure CubeV1State where
  step : ℕ
  targetRotX : ℚ
  targetRotY : ℚ
  animating : Bool
  progress : ℚ
  deriving DecidableEq, Repr

/-- The target rotation the first variant assigns to a forward step taken
at counter parity `k % 2` (`CubeTransition.tsx` lines 243-251): even steps
rotate right (`y = -π/2`, horizontal), odd steps rotate down
(`x = +π/2`, vertical). -/
def cubeV1ForwardRot (k : ℕ) : ℚ × ℚ :=
  if k % 2 = 0 then (0, -(1/2)) else (1/2, 0)

/-- The slide-change `useEffect` of the first cube variant
(`CubeTransition.tsx` lines 233-270), as a function of the requested
direction (`isForward = direction === 'next'`).  Forward: set the target
rotation from the current counter parity and increment the counter.
Backward: only when the counter is positive, set the negated rotation of
the forward step of parity `step - 1` and decrement.  In every case the
handler sets `isAnimating = true` and `progress = 0`. -/
def cubeV1SlideChange (s : CubeV1State) (isForward : Bool) : CubeV1State :=
  if isForward then
    if s.step % 2 = 0 then
      { s with
        targetRotX := 0
        targetRotY := -(1/2)
        step := s.step + 1
        animating := true
        progress := 0 }
    else
      { s with
        targetRotX := 1/2
        targetRotY := 0
        step := s.step + 1
        animating := true
        progress := 0 }
  else
    if 0 < s.step then
      if (s.step - 1) % 2 = 0 then
        { s with
          targetRotX := 0
          targetRotY := 1/2
          step := s.step - 1
          animating := true
          progress := 0 }
      else
        { s with
          targetRotX := -(1/2)
          targetRotY := 0
          step := s.step - 1
          animating := true
          progress := 0 }
    else
      { s with animating := true, progress := 0 }

/-- Apply a single `next()` or `prev()` request to the `useSlideshow`
state. -/
def applyRequest (loop : Bool) (totalSlides : ℕ) (s : HookState)
    (r : NavDirection) : HookState :=
  match r with
  | NavDirection.next => hookNext loop totalSlides s
  | NavDirection.prev => hookPrev loop totalSlides s

/-- Apply a sequence of `next()`/`prev()` requests in order. -/
def applyRequests (loop : Bool) (totalSlides : ℕ) (reqs : List NavDirection)
    (s : HookState) : HookState :=
  reqs.foldl (applyRequest loop totalSlides) s

/-- Net signed number of steps of a request sequence:
`#next - #prev`. -/
def netSteps (reqs : List NavDirection) : ℤ :=
  (reqs.count NavDirection.next : ℤ) - (reqs.count NavDirection.prev : ℤ)

/-- The single-step advancement protocol shared by the cube and cascade
machines with `loop = true` and slide count `n`:
the slide-change effect never touches `displayedIndex`; a frame mutates
`displayedIndex` only when its clamped progress reaches exactly 1, and then
by exactly one step modulo `n` in the current animation direction; with
`loop = true` the control surface moves `currentIndex` to the start index
plus the net signed number of steps modulo `n`; a settled machine whose
target is the control surface's index therefore displays the net sum of
steps modulo `n`; and an idle machine sweeping to a target `k` steps away
under step-completing frame deltas advances one slide at a time, visiting
each intermediate index exactly once, in order, ending settled on the
target. -/
def StepProtocolProp (n : ℕ) : Prop :=
  (∀ (t : ℕ) (d : AnimDir) (s : CubeState), (retarget t d s).displayed = s.displayed) ∧
  (∀ (t : ℕ) (d : AnimDir) (s : CascadeState),
    (cascadeRetarget t d s).displayed = s.displayed) ∧
  (∀ (duration delta : ℚ) (s : CubeState),
    (cubeUseFrame n duration delta s).displayed ≠ s.displayed →
      cubeFrameProgress duration delta s = 1 ∧
      (cubeUseFrame n duration delta s).displayed = stepIndex n s.dir s.displayed) ∧
  (∀ (duration delta : ℚ) (s : CascadeState),
    (cascadeUseFrame n duration delta s).displayed ≠ s.displayed →
      cascadeFrameProgress duration delta s = 1 ∧
      (cascadeUseFrame n duration delta s).displayed = stepIndex n s.dir s.displayed) ∧
  (∀ (reqs : List NavDirection) (h : HookState), h.currentIndex < n →
    ((applyRequests true n reqs h).currentIndex : ℤ)
      = ((h.currentIndex : ℤ) + netSteps reqs) % n) ∧
  (∀ s : CubeState, s.settled → ∀ (reqs : List NavDirection) (h : HookState),
    h.currentIndex < n → s.target = (applyRequests true n reqs h).currentIndex →
    (s.displayed : ℤ) = ((h.currentIndex : ℤ) + netSteps reqs) % n) ∧
  (∀ s : CascadeState, s.settled → ∀ (reqs : List NavDirection) (h : HookState),
    h.currentIndex < n → s.target = (applyRequests true n reqs h).currentIndex →
    (s.displayed : ℤ) = ((h.currentIndex : ℤ) + netSteps reqs) % n) ∧
  (∀ (duration delta : ℚ) (s : CubeState),
    s.displayed < n → s.target < n → s.animating = false →
    1 ≤ delta * ((1 / duration) * 1000) →
    (∀ i, i < distToward n s.dir s.displayed s.target →
      ((cubeUseFrame n duration delta)^[i + 1] s).displayed
        = stepIndex n s.dir (((cubeUseFrame n duration delta)^[i] s).displayed)) ∧
    ((cubeUseFrame n duration delta)^[distToward n s.dir s.displayed s.target] s).displayed
      = s.target ∧
    ((cubeUseFrame n duration delta)^[distToward n s.dir s.displayed s.target] s).settled ∧
    (∀ i j, i ≤ distToward n s.dir s.displayed s.target →
      j ≤ distToward n s.dir s.displayed s.target →
      ((cubeUseFrame n duration delta)^[i] s).displayed
        = ((cubeUseFrame n duration delta)^[j] s).displayed → i = j)) ∧
  (∀ (duration delta : ℚ) (s : CascadeState),
    s.displayed < n → s.target < n → s.animating = false →
    1 ≤ delta * (ANIMATION_SPEED * (1000 / duration) * (4/5)) →
    (∀ i, i < distToward n s.dir s.displayed s.target →
      ((cascadeUseFrame n duration delta)^[i + 1] s).displayed
        = stepIndex n s.dir (((cascadeUseFrame n duration delta)^[i] s).displayed)) ∧
    ((cascadeUseFrame n duration delta)^[distToward n s.dir s.displayed s.target] s).displayed
      = s.target ∧
    ((cascadeUseFrame n duration delta)^[distToward n s.dir s.displayed s.target] s).settled ∧
    (∀ i j, i ≤ distToward n s.dir s.displayed s.target →
      j ≤ distToward n s.dir s.displayed s.target →
      ((cascadeUseFrame n duration delta)^[i] s).displayed
        = ((cascadeUseFrame n duration delta)^[j] s).displayed → i = j))

/-! ## Helper lemmas -/

theorem easeInOutCubic_zero : easeInOutCubic 0 = 0 := by
  norm_num [easeInOutCubic]

theorem easeInOutCubic_one : easeInOutCubic 1 = 1 := by
  norm_num [easeInOutCubic]

theorem easeInOutCubic_mono {a b : ℚ} (h0 : 0 ≤ a) (hab : a ≤ b) (hb : b ≤ 1) :
    easeInOutCubic a ≤ easeInOutCubic b := by
  unfold easeInOutCubic
  split_ifs with ha hbb hbb
  · nlinarith [sq_nonneg (a + b), sq_nonneg (a - b), sq_nonneg a, sq_nonneg b]
  · nlinarith [sq_nonneg (1 - b), sq_nonneg a, sq_nonneg (2 * b - 1), sq_nonneg (2 * a - 1)]
  · exact absurd (lt_of_le_of_lt hab hbb) (not_lt.mpr (le_of_not_lt ha))
  · nlinarith [sq_nonneg (2 - a - b), sq_nonneg (b - a), sq_nonneg (2 - 2 * a), sq_nonneg (2 - 2 * b)]

theorem easeInOutCubic_nonneg {t : ℚ} (h0 : 0 ≤ t) (h1 : t ≤ 1) :
    0 ≤ easeInOutCubic t := by
  have := easeInOutCubic_mono (le_refl 0) h0 h1
  rwa [easeInOutCubic_zero] at this

theorem easeInOutCubic_le_one {t : ℚ} (h0 : 0 ≤ t) (h1 : t ≤ 1) :
    easeInOutCubic t ≤ 1 := by
  have := easeInOutCubic_mono h0 h1 (le_refl 1)
  rwa [easeInOutCubic_one] at this

/-- Resolve `x % n` when `x < 2 * n`: it is `x` below `n` and `x - n`
otherwise. -/
theorem mod_two_cases {x n : ℕ} (h : x < 2 * n) :
    x % n = if x < n then x else x - n := by
  split_ifs with hx
  · exact Nat.mod_eq_of_lt hx
  · rw [Nat.mod_eq_sub_mod (le_of_not_lt hx)]
    exact Nat.mod_eq_of_lt (by omega)

theorem stepIndex_lt {n : ℕ} (hn : 0 < n) (d : AnimDir) (i : ℕ) :
    stepIndex n d i < n := by
  cases d <;> exact Nat.mod_lt _ hn

theorem distToward_lt {n : ℕ} (hn : 0 < n) (d : AnimDir) (i j : ℕ) :
    distToward n d i j < n := by
  cases d <;> exact Nat.mod_lt _ hn

theorem distToward_eq_zero_iff {n : ℕ} (d : AnimDir) {i j : ℕ}
    (hi : i < n) (hj : j < n) :
    distToward n d i j = 0 ↔ i = j := by
  cases d
  case forward =>
    simp only [distToward]
    rw [mod_two_cases (show n + j - i < 2 * n by omega)]
    split_ifs <;> omega
  case backward =>
    simp only [distToward]
    rw [mod_two_cases (show n + i - j < 2 * n by omega)]
    split_ifs <;> omega

/-- One step toward the target decrements the directed distance. -/
theorem distToward_step {n : ℕ} (d : AnimDir) {i j : ℕ}
    (hi : i < n) (hj : j < n) (hne : i ≠ j) :
    distToward n d (stepIndex n d i) j + 1 = distToward n d i j := by
  cases d
  case forward =>
    simp only [distToward, stepIndex]
    rw [mod_two_cases (show i + 1 < 2 * n by omega)]
    split_ifs with h1
    · rw [mod_two_cases (show n + j - (i + 1) < 2 * n by omega),
        mod_two_cases (show n + j - i < 2 * n by omega)]
      split_ifs <;> omega
    · rw [mod_two_cases (show n + j - (i + 1 - n) < 2 * n by omega),
        mod_two_cases (show n + j - i < 2 * n by omega)]
      split_ifs <;> omega
  case backward =>
    simp only [distToward, stepIndex]
    rw [mod_two_cases (show i + n - 1 < 2 * n by omega)]
    split_ifs with h1
    · rw [mod_two_cases (show n + (i + n - 1) - j < 2 * n by omega),
        mod_two_cases (show n + i - j < 2 * n by omega)]
      split_ifs <;> omega
    · rw [mod_two_cases (show n + (i + n - 1 - n) - j < 2 * n by omega),
        mod_two_cases (show n + i - j < 2 * n by omega)]
      split_ifs <;> omega

/-- One frame of the cube machine from an idle or just-started state whose
displayed slide differs from the target, with a frame delta large enough to
complete the step: the machine commits exactly one step in the current
animation direction, keeps target and direction, and is animating with
progress 0 exactly when the target has not been reached. -/
theorem cubeUseFrame_advance {n : ℕ} {duration delta : ℚ} {s : CubeState}
    (hne : s.displayed ≠ s.target)
    (hidle : s.animating = false ∨ s.progress = 0)
    (hδ : 1 ≤ delta * ((1 / duration) * 1000)) :
    (cubeUseFrame n duration delta s).displayed = stepIndex n s.dir s.displayed ∧
    (cubeUseFrame n duration delta s).target = s.target ∧
    (cubeUseFrame n duration delta s).dir = s.dir ∧
    ((cubeUseFrame n duration delta s).animating = true →
      (cubeUseFrame n duration delta s).progress = 0) ∧
    ((cubeUseFrame n duration delta s).displayed = s.target →
      (cubeUseFrame n duration delta s).animating = false) := by
  have hp : cubeProgressUpdate duration 0 delta = 1 := by
    unfold cubeProgressUpdate
    rw [zero_add]
    exact min_eq_right hδ
  rcases hidle with ha | hp0
  · simp only [cubeUseFrame, cubeStartNextTransition, ha, hne]
    simp only [Bool.false_eq_true, if_false, if_neg hne, if_pos hne, if_true]
    simp only [hp, le_refl, if_true]
    split_ifs with hcont <;> simp_all [cubeStartNextTransition]
  · rcases hb : s.animating with _ | _
    · simp only [cubeUseFrame, cubeStartNextTransition, hb, hne]
      simp only [Bool.false_eq_true, if_false, if_neg hne, if_pos hne, if_true]
      simp only [hp0, hp, le_refl, if_true]
      split_ifs with hcont <;> simp_all [cubeStartNextTransition]
    · simp only [cubeUseFrame, hb, if_true]
      simp only [hp0, hp, le_refl, if_true]
      split_ifs with hcont <;> simp_all [cubeStartNextTransition]

/-- One frame of the cascade machine from an idle or just-started state
whose displayed slide differs from the target, with a frame delta large
enough to complete the step. -/
theorem cascadeUseFrame_advance {n : ℕ} {duration delta : ℚ} {s : CascadeState}
    (hne : s.displayed ≠ s.target)
    (hidle : s.animating = false ∨ s.progress = 0)
    (hδ : 1 ≤ delta * (ANIMATION_SPEED * (1000 / duration) * (4/5))) :
    (cascadeUseFrame n duration delta s).displayed = stepIndex n s.dir s.displayed ∧
    (cascadeUseFrame n duration delta s).target = s.target ∧
    (cascadeUseFrame n duration delta s).dir = s.dir ∧
    ((cascadeUseFrame n duration delta s).animating = true →
      (cascadeUseFrame n duration delta s).progress = 0) ∧
    ((cascadeUseFrame n duration delta s).displayed = s.target →
      (cascadeUseFrame n duration delta s).animating = false) := by
  have hp : cascadeProgressUpdate duration 0 delta = 1 := by
    unfold cascadeProgressUpdate
    rw [zero_add]
    exact min_eq_right hδ
  rcases hidle with ha | hp0
  · simp only [cascadeUseFrame, cascadeStartNextTransition, ha, hne]
    simp only [Bool.false_eq_true, if_false, if_neg hne, if_pos hne, if_true]
    simp only [hp, le_refl, if_true]
    split_ifs with hcont <;> simp_all [cascadeStartNextTransition]
  · rcases hb : s.animating with _ | _
    · simp only [cascadeUseFrame, cascadeStartNextTransition, hb, hne]
      simp only [Bool.false_eq_true, if_false, if_neg hne, if_pos hne, if_true]
      simp only [hp0, hp, le_refl, if_true]
      split_ifs with hcont <;> simp_all [cascadeStartNextTransition]
    · simp only [cascadeUseFrame, hb, if_true]
      simp only [hp0, hp, le_refl, if_true]
      split_ifs with hcont <;> simp_all [cascadeStartNextTransition]

/-- Invariant of an uninterrupted cube sweep: starting idle with the target
`k = distToward ...` single steps away and frame deltas that complete one
step per frame, the `i`-th frame state still carries the same target and
direction, its displayed index is exactly `k - i` steps from the target,
each frame advances the displayed index by one step of the previous frame's
index, and the sweep ends settled. -/
theorem cubeSweepAux {n : ℕ} (hn : 2 ≤ n) (duration delta : ℚ)
    (hδ : 1 ≤ delta * ((1 / duration) * 1000)) (s : CubeState)
    (hd : s.displayed < n) (ht : s.target < n) (ha : s.animating = false) :
    ∀ i, i ≤ distToward n s.dir s.displayed s.target →
      ((cubeUseFrame n duration delta)^[i] s).target = s.target ∧
      ((cubeUseFrame n duration delta)^[i] s).dir = s.dir ∧
      ((cubeUseFrame n duration delta)^[i] s).displayed < n ∧
      distToward n s.dir ((cubeUseFrame n duration delta)^[i] s).displayed s.target
        = distToward n s.dir s.displayed s.target - i ∧
      (((cubeUseFrame n duration delta)^[i] s).animating = true →
        ((cubeUseFrame n duration delta)^[i] s).progress = 0) ∧
      (∀ j, i = j + 1 →
        ((cubeUseFrame n duration delta)^[i] s).displayed
          = stepIndex n s.dir (((cubeUseFrame n duration delta)^[j] s).displayed)) ∧
      (i = distToward n s.dir s.displayed s.target →
        ((cubeUseFrame n duration delta)^[i] s).settled) := by
  intro i
  induction i with
  | zero =>
    intro _
    rw [Function.iterate_zero_apply]
    refine ⟨rfl, rfl, hd, by omega, by simp [ha], by omega, ?_⟩
    intro h0
    have : s.displayed = s.target :=
      (distToward_eq_zero_iff s.dir hd ht).mp h0.symm
    exact ⟨ha, this⟩
  | succ i ih =>
    intro hik
    obtain ⟨htg, hdir, hlt, hdist, hanim, _, _⟩ := ih (by omega)
    have hne : ((cubeUseFrame n duration delta)^[i] s).displayed
        ≠ ((cubeUseFrame n duration delta)^[i] s).target := by
      rw [htg]
      intro hcontra
      rw [hcontra] at hdist
      rw [(distToward_eq_zero_iff s.dir ht ht).mpr rfl] at hdist
      omega
    have hidle : ((cubeUseFrame n duration delta)^[i] s).animating = false ∨
        ((cubeUseFrame n duration delta)^[i] s).progress = 0 := by
      cases hb : ((cubeUseFrame n duration delta)^[i] s).animating
      · exact Or.inl rfl
      · exact Or.inr (hanim hb)
    obtain ⟨adv1, adv2, adv3, adv4, adv5⟩ :=
      @cubeUseFrame_advance n duration delta _ hne hidle hδ
    rw [hdir] at adv1
    rw [htg] at adv2 adv5
    have hstep : distToward n s.dir
        (stepIndex n s.dir (((cubeUseFrame n duration delta)^[i] s).displayed)) s.target + 1
        = distToward n s.dir (((cubeUseFrame n duration delta)^[i] s).displayed) s.target :=
      distToward_step s.dir hlt ht (by rwa [htg] at hne)
    have hit : (cubeUseFrame n duration delta)^[i + 1] s
        = cubeUseFrame n duration delta ((cubeUseFrame n duration delta)^[i] s) :=
      Function.iterate_succ_apply' _ i s
    refine ⟨?_, ?_, ?_, ?_, ?_, ?_, ?_⟩
    · rw [hit]; exact adv2
    · rw [hit, adv3, hdir]
    · rw [hit, adv1]; exact stepIndex_lt (by omega) _ _
    · rw [hit, adv1]; omega
    · rw [hit]; exact adv4
    · intro j hj
      have hij : i = j := by omega
      subst hij
      rw [hit, adv1]
    · intro _
      have hz : distToward n s.dir
          (stepIndex n s.dir (((cubeUseFrame n duration delta)^[i] s).displayed)) s.target
          = 0 := by omega
      have hTT : stepIndex n s.dir (((cubeUseFrame n duration delta)^[i] s).displayed)
          = s.target :=
        (distToward_eq_zero_iff s.dir (stepIndex_lt (by omega) _ _) ht).mp hz
      constructor
      · rw [hit]; exact adv5 (by rw [adv1, hTT])
      · rw [hit, adv1, hTT, adv2]

/-- Invariant of an uninterrupted cascade sweep; same statement as
`cubeSweepAux` for the cascade machine. -/
theorem cascadeSweepAux {n : ℕ} (hn : 2 ≤ n) (duration delta : ℚ)
    (hδ : 1 ≤ delta * (ANIMATION_SPEED * (1000 / duration) * (4/5))) (s : CascadeState)
    (hd : s.displayed < n) (ht : s.target < n) (ha : s.animating = false) :
    ∀ i, i ≤ distToward n s.dir s.displayed s.target →
      ((cascadeUseFrame n duration delta)^[i] s).target = s.target ∧
      ((cascadeUseFrame n duration delta)^[i] s).dir = s.dir ∧
      ((cascadeUseFrame n duration delta)^[i] s).displayed < n ∧
      distToward n s.dir ((cascadeUseFrame n duration delta)^[i] s).displayed s.target
        = distToward n s.dir s.displayed s.target - i ∧
      (((cascadeUseFrame n duration delta)^[i] s).animating = true →
        ((cascadeUseFrame n duration delta)^[i] s).progress = 0) ∧
      (∀ j, i = j + 1 →
        ((cascadeUseFrame n duration delta)^[i] s).displayed
          = stepIndex n s.dir (((cascadeUseFrame n duration delta)^[j] s).displayed)) ∧
      (i = distToward n s.dir s.displayed s.target →
        ((cascadeUseFrame n duration delta)^[i] s).settled) := by
  intro i
  induction i with
  | zero =>
    intro _
    rw [Function.iterate_zero_apply]
    refine ⟨rfl, rfl, hd, by omega, by simp [ha], by omega, ?_⟩
    intro h0
    have : s.displayed = s.target :=
      (distToward_eq_zero_iff s.dir hd ht).mp h0.symm
    exact ⟨ha, this⟩
  | succ i ih =>
    intro hik
    obtain ⟨htg, hdir, hlt, hdist, hanim, _, _⟩ := ih (by omega)
    have hne : ((cascadeUseFrame n duration delta)^[i] s).displayed
        ≠ ((cascadeUseFrame n duration delta)^[i] s).target := by
      rw [htg]
      intro hcontra
      rw [hcontra] at hdist
      rw [(distToward_eq_zero_iff s.dir ht ht).mpr rfl] at hdist
      omega
    have hidle : ((cascadeUseFrame n duration delta)^[i] s).animating = false ∨
        ((cascadeUseFrame n duration delta)^[i] s).progress = 0 := by
      cases hb : ((cascadeUseFrame n duration delta)^[i] s).animating
      · exact Or.inl rfl
      · exact Or.inr (hanim hb)
    obtain ⟨adv1, adv2, adv3, adv4, adv5⟩ :=
      @cascadeUseFrame_advance n duration delta _ hne hidle hδ
    rw [hdir] at adv1
    rw [htg] at adv2 adv5
    have hstep : distToward n s.dir
        (stepIndex n s.dir (((cascadeUseFrame n duration delta)^[i] s).displayed)) s.target + 1
        = distToward n s.dir (((cascadeUseFrame n duration delta)^[i] s).displayed) s.target :=
      distToward_step s.dir hlt ht (by rwa [htg] at hne)
    have hit : (cascadeUseFrame n duration delta)^[i + 1] s
        = cascadeUseFrame n duration delta ((cascadeUseFrame n duration delta)^[i] s) :=
      Function.iterate_succ_apply' _ i s
    refine ⟨?_, ?_, ?_, ?_, ?_, ?_, ?_⟩
    · rw [hit]; exact adv2
    · rw [hit, adv3, hdir]
    · rw [hit, adv1]; exact stepIndex_lt (by omega) _ _
    · rw [hit, adv1]; omega
    · rw [hit]; exact adv4
    · intro j hj
      have hij : i = j := by omega
      subst hij
      rw [hit, adv1]
    · intro _
      have hz : distToward n s.dir
          (stepIndex n s.dir (((cascadeUseFrame n duration delta)^[i] s).displayed)) s.target
          = 0 := by omega
      have hTT : stepIndex n s.dir (((cascadeUseFrame n duration delta)^[i] s).displayed)
          = s.target :=
        (distToward_eq_zero_iff s.dir (stepIndex_lt (by omega) _ _) ht).mp hz
      constructor
      · rw [hit]; exact adv5 (by rw [adv1, hTT])
      · rw [hit, adv1, hTT, adv2]

/-- With `loop = true`, `next()` advances `currentIndex` by one modulo the
slide count (and keeps it in range). -/
theorem hookNext_loop_mod {n : ℕ} (hn : 2 ≤ n) {s : HookState}
    (h : s.currentIndex < n) :
    ((hookNext true n s).currentIndex : ℤ) = ((s.currentIndex : ℤ) + 1) % n ∧
    (hookNext true n s).currentIndex < n := by
  unfold hookNext canGoNext
  simp only [Bool.true_or, if_true]
  split_ifs with hge
  · have hidx : s.currentIndex = n - 1 := by omega
    constructor
    · rw [hidx]
      have : ((n - 1 : ℕ) : ℤ) + 1 = (n : ℤ) := by
        push_cast [Nat.cast_sub (by omega : 1 ≤ n)]
        ring
      rw [this, Int.emod_self]
      rfl
    · omega
  · constructor
    · rw [Int.emod_eq_of_lt (by positivity) (by omega)]
      push_cast
      ring
    · omega

/-- With `loop = true`, `prev()` retreats `currentIndex` by one modulo the
slide count (and keeps it in range). -/
theorem hookPrev_loop_mod {n : ℕ} (hn : 2 ≤ n) {s : HookState}
    (h : s.currentIndex < n) :
    ((hookPrev true n s).currentIndex : ℤ) = ((s.currentIndex : ℤ) - 1) % n ∧
    (hookPrev true n s).currentIndex < n := by
  unfold hookPrev canGoPrev
  simp only [Bool.true_or, if_true]
  split_ifs with hle
  · have hidx : s.currentIndex = 0 := by omega
    constructor
    · rw [hidx]
      have h1 : ((0 : ℕ) : ℤ) - 1 = ((n : ℤ) - 1) - n := by ring
      rw [h1, Int.emod_sub_cancel,
        Int.emod_eq_of_lt (by omega) (by omega)]
      push_cast [Nat.cast_sub (by omega : 1 ≤ n)]
      ring
    · omega
  · constructor
    · rw [Int.emod_eq_of_lt (by omega) (by omega)]
      push_cast [Nat.cast_sub (by omega : 1 ≤ s.currentIndex)]
      ring
    · omega

/-- With `loop = true` and a slide count of at least 2, a request sequence
moves `currentIndex` to the start index plus the net signed number of steps
modulo the slide count, staying in range. -/
theorem applyRequests_net {n : ℕ} (hn : 2 ≤ n) (reqs : List NavDirection) :
    ∀ s : HookState, s.currentIndex < n →
      ((applyRequests true n reqs s).currentIndex : ℤ)
        = ((s.currentIndex : ℤ) + netSteps reqs) % n ∧
      (applyRequests true n reqs s).currentIndex < n := by
  induction reqs with
  | nil =>
    intro s h
    refine ⟨?_, h⟩
    simp only [applyRequests, List.foldl_nil, netSteps, List.count_nil]
    rw [Int.emod_eq_of_lt (by positivity) (by push_cast; omega)]
    push_cast
    ring
  | cons r rest ih =>
    intro s h
    have hfold : applyRequests true n (r :: rest) s
        = applyRequests true n rest (applyRequest true n s r) := by
      simp [applyRequests, List.foldl_cons]
    cases r
    case next =>
      have h1 := hookNext_loop_mod hn h
      have h2 := ih (hookNext true n s) h1.2
      rw [hfold]
      simp only [applyRequest]
      refine ⟨?_, h2.2⟩
      rw [h2.1]
      rw [h1.1, Int.emod_add_emod]
      have hcount : netSteps (NavDirection.next :: rest) = netSteps rest + 1 := by
        simp [netSteps, List.count_cons]
        omega
      rw [hcount]
      congr 1
      ring
    case prev =>
      have h1 := hookPrev_loop_mod hn h
      have h2 := ih (hookPrev true n s) h1.2
      rw [hfold]
      simp only [applyRequest]
      refine ⟨?_, h2.2⟩
      rw [h2.1]
      rw [h1.1, Int.emod_add_emod]
      have hcount : netSteps (NavDirection.prev :: rest) = netSteps rest - 1 := by
        simp [netSteps, List.count_cons]
        omega
      rw [hcount]
      congr 1
      ring

/-- A cube frame that mutates `displayedIndex` did so with its clamped
progress at exactly 1, moving one step in the current animation
direction. -/
theorem cubeUseFrame_mutation (n : ℕ) (duration delta : ℚ) (s : CubeState)
    (hmut : (cubeUseFrame n duration delta s).displayed ≠ s.displayed) :
    cubeFrameProgress duration delta s = 1 ∧
    (cubeUseFrame n duration delta s).displayed = stepIndex n s.dir s.displayed := by
  have hple : cubeProgressUpdate duration (if s.animating then s.progress else 0) delta ≤ 1 :=
    min_le_right _ _
  cases hb : s.animating
  · by_cases hd : s.displayed = s.target
    · exfalso
      apply hmut
      simp [cubeUseFrame, hb, hd]
    · simp only [cubeUseFrame, cubeStartNextTransition, hb, Bool.false_eq_true,
        if_false, if_neg hd, if_pos hd, ne_eq, not_false_iff, if_true] at hmut ⊢
      by_cases hp : 1 ≤ cubeProgressUpdate duration 0 delta
      · simp only [if_pos hp] at hmut ⊢
        constructor
        · simp only [cubeFrameProgress, hb, Bool.false_eq_true, if_false]
          exact le_antisymm (min_le_right _ _) hp
        · split_ifs with hc <;> simp [cubeStartNextTransition, hc]
      · exfalso
        apply hmut
        simp [if_neg hp]
  · simp only [cubeUseFrame, hb, if_true] at hmut ⊢
    by_cases hp : 1 ≤ cubeProgressUpdate duration s.progress delta
    · simp only [if_pos hp] at hmut ⊢
      constructor
      · simp only [cubeFrameProgress, hb, if_true]
        exact le_antisymm (min_le_right _ _) hp
      · split_ifs with hc <;> simp [cubeStartNextTransition, hc]
    · exfalso
      apply hmut
      simp [if_neg hp]

/-- A cascade frame that mutates `displayedIndex` did so with its clamped
progress at exactly 1, moving one step in the current animation
direction. -/
theorem cascadeUseFrame_mutation (n : ℕ) (duration delta : ℚ) (s : CascadeState)
    (hmut : (cascadeUseFrame n duration delta s).displayed ≠ s.displayed) :
    cascadeFrameProgress duration delta s = 1 ∧
    (cascadeUseFrame n duration delta s).displayed = stepIndex n s.dir s.displayed := by
  cases hb : s.animating
  · by_cases hd : s.displayed = s.target
    · exfalso
      apply hmut
      simp [cascadeUseFrame, hb, hd]
    · simp only [cascadeUseFrame, cascadeStartNextTransition, hb, Bool.false_eq_true,
        if_false, if_neg hd, if_pos hd, ne_eq, not_false_iff, if_true] at hmut ⊢
      by_cases hp : 1 ≤ cascadeProgressUpdate duration 0 delta
      · simp only [if_pos hp] at hmut ⊢
        constructor
        · simp only [cascadeFrameProgress, hb, Bool.false_eq_true, if_false]
          exact le_antisymm (min_le_right _ _) hp
        · split_ifs with hc <;> simp [cascadeStartNextTransition, hc]
      · exfalso
        apply hmut
        simp [if_neg hp]
  · simp only [cascadeUseFrame, hb, if_true] at hmut ⊢
    by_cases hp : 1 ≤ cascadeProgressUpdate duration s.progress delta
    · simp only [if_pos hp] at hmut ⊢
      constructor
      · simp only [cascadeFrameProgress, hb, if_true]
        exact le_antisymm (min_le_right _ _) hp
      · split_ifs with hc <;> simp [cascadeStartNextTransition, hc]
    · exfalso
      apply hmut
      simp [if_neg hp]

/-! ## Claims -/

/-- C1: for every slide count `N >= 2` with `loop = true` and every
sequence of `next()`/`prev()` requests, the per-style transition machines
advance one slide at a time: `displayedIndex` is mutated only at the
instant `progress` reaches 1, each mutation moves it by exactly one index
(mod `N`) in the current animation direction, after all animations settle
`displayedIndex` equals the net sum of steps modulo `N`, and a sweep to a
target visits every intermediate index exactly once, in order. -/
theorem claim_step_invariant (n : ℕ) (hn : 2 ≤ n) : StepProtocolProp n := by
  refine ⟨?_, ?_, ?_, ?_, ?_, ?_, ?_, ?_, ?_⟩
  · intro t d s
    unfold retarget
    split_ifs <;> rfl
  · intro t d s
    unfold cascadeRetarget
    split_ifs <;> rfl
  · intro duration delta s
    exact cubeUseFrame_mutation n duration delta s
  · intro duration delta s
    exact cascadeUseFrame_mutation n duration delta s
  · intro reqs h hlt
    exact (applyRequests_net hn reqs h hlt).1
  · intro s hs reqs h hlt htg
    rw [hs.2, htg]
    exact (applyRequests_net hn reqs h hlt).1
  · intro s hs reqs h hlt htg
    rw [hs.2, htg]
    exact (applyRequests_net hn reqs h hlt).1
  · intro duration delta s hd ht ha hdel
    have aux := cubeSweepAux hn duration delta hdel s hd ht ha
    refine ⟨?_, ?_, ?_, ?_⟩
    · intro i hik
      obtain ⟨_, _, _, _, _, h6, _⟩ := aux (i + 1) (by omega)
      exact h6 i rfl
    · obtain ⟨htg, _, _, _, _, _, h7⟩ :=
        aux (distToward n s.dir s.displayed s.target) le_rfl
      have hset := (h7 rfl).2
      rw [htg] at hset
      exact hset
    · obtain ⟨_, _, _, _, _, _, h7⟩ :=
        aux (distToward n s.dir s.displayed s.target) le_rfl
      exact h7 rfl
    · intro i j hi hj heq
      obtain ⟨_, _, _, hdi, _, _, _⟩ := aux i hi
      obtain ⟨_, _, _, hdj, _, _, _⟩ := aux j hj
      rw [heq] at hdi
      omega
  · intro duration delta s hd ht ha hdel
    have aux := cascadeSweepAux hn duration delta hdel s hd ht ha
    refine ⟨?_, ?_, ?_, ?_⟩
    · intro i hik
      obtain ⟨_, _, _, _, _, h6, _⟩ := aux (i + 1) (by omega)
      exact h6 i rfl
    · obtain ⟨htg, _, _, _, _, _, h7⟩ :=
        aux (distToward n s.dir s.displayed s.target) le_rfl
      have hset := (h7 rfl).2
      rw [htg] at hset
      exact hset
    · obtain ⟨_, _, _, _, _, _, h7⟩ :=
        aux (distToward n s.dir s.displayed s.target) le_rfl
      exact h7 rfl
    · intro i j hi hj heq
      obtain ⟨_, _, _, hdi, _, _, _⟩ := aux i hi
      obtain ⟨_, _, _, hdj, _, _, _⟩ := aux j hj
      rw [heq] at hdi
      omega

/-- Witness for C1 at slide count 3. -/
theorem claim_step_invariant_witness : 2 ≤ 3 ∧ StepProtocolProp 3 :=
  ⟨by norm_num, claim_step_invariant 3 (by norm_num)⟩

/-- C2: a new `targetIndex` arriving mid-flight leaves `progress`,
`isAnimating`, `displayedIndex` and all in-flight geometry state unchanged;
only `targetIndex` and the animation direction flag are updated (and when
the incoming target equals the stored one, nothing changes at all). -/
theorem claim_retarget_preserves_flight (t : ℕ) (d : AnimDir) (s : CubeState)
    (t2 : ℕ) (d2 : AnimDir) (s2 : CascadeState) :
    ((retarget t d s).displayed = s.displayed ∧
     (retarget t d s).progress = s.progress ∧
     (retarget t d s).animating = s.animating ∧
     (retarget t d s).rotAxisX = s.rotAxisX ∧
     (retarget t d s).rotAngle = s.rotAngle ∧
     (retarget t d s).pivotRotX = s.pivotRotX ∧
     (retarget t d s).pivotRotY = s.pivotRotY ∧
     (retarget t d s).currentPlaneTex = s.currentPlaneTex ∧
     (retarget t d s).nextPlaneTex = s.nextPlaneTex ∧
     (retarget t d s).nextPlaneVisible = s.nextPlaneVisible ∧
     (retarget t d s).target = t ∧
     (t ≠ s.target → (retarget t d s).dir = d) ∧
     (t = s.target → retarget t d s = s)) ∧
    ((cascadeRetarget t2 d2 s2).displayed = s2.displayed ∧
     (cascadeRetarget t2 d2 s2).progress = s2.progress ∧
     (cascadeRetarget t2 d2 s2).animating = s2.animating ∧
     (cascadeRetarget t2 d2 s2).sideTex = s2.sideTex ∧
     (cascadeRetarget t2 d2 s2).allTex = s2.allTex ∧
     (cascadeRetarget t2 d2 s2).target = t2 ∧
     (t2 ≠ s2.target → (cascadeRetarget t2 d2 s2).dir = d2) ∧
     (t2 = s2.target → cascadeRetarget t2 d2 s2 = s2)) := by
  constructor
  · unfold retarget
    split_ifs with h <;> simp_all
  · unfold cascadeRetarget
    split_ifs with h <;> simp_all

/-- Witness for C2 at a concrete mid-flight state. -/
theorem claim_retarget_preserves_flight_witness :
    ((retarget 2 AnimDir.backward
        ⟨0, 1, AnimDir.forward, 1/2, true, false, -(1/2), 0, 0, 0, 1, true⟩).displayed = 0 ∧
     (retarget 2 AnimDir.backward
        ⟨0, 1, AnimDir.forward, 1/2, true, false, -(1/2), 0, 0, 0, 1, true⟩).progress = 1/2 ∧
     (retarget 2 AnimDir.backward
        ⟨0, 1, AnimDir.forward, 1/2, true, false, -(1/2), 0, 0, 0, 1, true⟩).animating = true ∧
     (retarget 2 AnimDir.backward
        ⟨0, 1, AnimDir.forward, 1/2, true, false, -(1/2), 0, 0, 0, 1, true⟩).rotAxisX = false ∧
     (retarget 2 AnimDir.backward
        ⟨0, 1, AnimDir.forward, 1/2, true, false, -(1/2), 0, 0, 0, 1, true⟩).rotAngle = -(1/2) ∧
     (retarget 2 AnimDir.backward
        ⟨0, 1, AnimDir.forward, 1/2, true, false, -(1/2), 0, 0, 0, 1, true⟩).pivotRotX = 0 ∧
     (retarget 2 AnimDir.backward
        ⟨0, 1, AnimDir.forward, 1/2, true, false, -(1/2), 0, 0, 0, 1, true⟩).pivotRotY = 0 ∧
     (retarget 2 AnimDir.backward
        ⟨0, 1, AnimDir.forward, 1/2, true, false, -(1/2), 0, 0, 0, 1, true⟩).currentPlaneTex = 0 ∧
     (retarget 2 AnimDir.backward
        ⟨0, 1, AnimDir.forward, 1/2, true, false, -(1/2), 0, 0, 0, 1, true⟩).nextPlaneTex = 1 ∧
     (retarget 2 AnimDir.backward
        ⟨0, 1, AnimDir.forward, 1/2, true, false, -(1/2), 0, 0, 0, 1, true⟩).nextPlaneVisible = true ∧
     (retarget 2 AnimDir.backward
        ⟨0, 1, AnimDir.forward, 1/2, true, false, -(1/2), 0, 0, 0, 1, true⟩).target = 2 ∧
     ((2 : ℕ) ≠ 1 → (retarget 2 AnimDir.backward
        ⟨0, 1, AnimDir.forward, 1/2, true, false, -(1/2), 0, 0, 0, 1, true⟩).dir = AnimDir.backward) ∧
     ((2 : ℕ) = 1 → retarget 2 AnimDir.backward
        ⟨0, 1, AnimDir.forward, 1/2, true, false, -(1/2), 0, 0, 0, 1, true⟩
        = ⟨0, 1, AnimDir.forward, 1/2, true, false, -(1/2), 0, 0, 0, 1, true⟩)) ∧
    ((cascadeRetarget 2 AnimDir.backward
        ⟨0, 1, AnimDir.forward, 1/2, true, 1, 0⟩).displayed = 0 ∧
     (cascadeRetarget 2 AnimDir.backward
        ⟨0, 1, AnimDir.forward, 1/2, true, 1, 0⟩).progress = 1/2 ∧
     (cascadeRetarget 2 AnimDir.backward
        ⟨0, 1, AnimDir.forward, 1/2, true, 1, 0⟩).animating = true ∧
     (cascadeRetarget 2 AnimDir.backward
        ⟨0, 1, AnimDir.forward, 1/2, true, 1, 0⟩).sideTex = 1 ∧
     (cascadeRetarget 2 AnimDir.backward
        ⟨0, 1, AnimDir.forward, 1/2, true, 1, 0⟩).allTex = 0 ∧
     (cascadeRetarget 2 AnimDir.backward
        ⟨0, 1, AnimDir.forward, 1/2, true, 1, 0⟩).target = 2 ∧
     ((2 : ℕ) ≠ 1 → (cascadeRetarget 2 AnimDir.backward
        ⟨0, 1, AnimDir.forward, 1/2, true, 1, 0⟩).dir = AnimDir.backward) ∧
     ((2 : ℕ) = 1 → cascadeRetarget 2 AnimDir.backward
        ⟨0, 1, AnimDir.forward, 1/2, true, 1, 0⟩
        = ⟨0, 1, AnimDir.forward, 1/2, true, 1, 0⟩)) :=
  claim_retarget_preserves_flight 2 AnimDir.backward
    ⟨0, 1, AnimDir.forward, 1/2, true, false, -(1/2), 0, 0, 0, 1, true⟩
    2 AnimDir.backward ⟨0, 1, AnimDir.forward, 1/2, true, 1, 0⟩

/-- C3 counterexample: in the `GlitchTransition.tsx` shader the displayed
color at `progress = 1/4 < 0.5` (current channel 1, next channel 0) is
`3/4`: neither the current texture nor the next one, but a
progress-weighted crossfade, refuting the discrete-switch claim for that
variant. -/
theorem claim_glitch_swap_counterexample :
    (1/4 : ℚ) < 1/2 ∧ glitchMixColor 1 0 (1/4) = 3/4 ∧
    glitchMixColor 1 0 (1/4) ≠ 1 ∧ glitchMixColor 1 0 (1/4) ≠ 0 := by
  norm_num [glitchMixColor]

/-- C3 (amended): the feature-complete glitch variant switches the base
texture discretely at `progress = 0.5` through the `uShowNext` uniform
(current below 0.5, next at or above), never blending the two; the simpler
`GlitchTransition.tsx` shader variant instead crossfades the two textures
weighted by `uProgress`. -/
theorem claim_glitch_swap_amended :
    ∀ progress currentColor nextColor : ℚ,
      glitchBaseColor (glitchShowNext progress) currentColor nextColor
        = (if progress < 1/2 then currentColor else nextColor) ∧
      glitchMixColor currentColor nextColor progress
        = currentColor + (nextColor - currentColor) * progress := by
  intro p c x
  constructor
  · unfold glitchShowNext glitchBaseColor
    by_cases hp : p ≥ 1/2
    · rw [if_pos hp, if_neg (by norm_num), if_neg (not_lt.mpr hp)]
    · rw [if_neg hp, if_pos (by norm_num), if_pos (lt_of_not_ge hp)]
  · unfold glitchMixColor
    ring

/-- C4 counterexample: a backward step taken with the parity counter at 0
does not decrement it (the first cube variant only decrements while the
counter is positive), refuting "decrements on every backward step". -/
theorem claim_cube_parity_counterexample :
    ¬ ((cubeV1SlideChange ⟨0, 0, 0, false, 0⟩ false).step + 1
        = (⟨0, 0, 0, false, 0⟩ : CubeV1State).step) := by
  decide

/-- C4 (amended): in the step-parity cube variant, forward steps at even
counter parity rotate horizontally and at odd parity vertically, the
counter increments on every forward step, and a backward step taken with a
positive counter decrements it and applies the negated rotation of the
forward step of the parity it returns to; a backward step with the counter
at 0 leaves the counter and the target rotation unchanged. -/
theorem claim_cube_parity_amended (s : CubeV1State) :
    ((cubeV1SlideChange s true).step = s.step + 1) ∧
    ((cubeV1SlideChange s true).targetRotX = (cubeV1ForwardRot s.step).1 ∧
     (cubeV1SlideChange s true).targetRotY = (cubeV1ForwardRot s.step).2) ∧
    (s.step % 2 = 0 →
      (cubeV1SlideChange s true).targetRotX = 0 ∧
      (cubeV1SlideChange s true).targetRotY = -(1/2)) ∧
    (s.step % 2 = 1 →
      (cubeV1SlideChange s true).targetRotX = 1/2 ∧
      (cubeV1SlideChange s true).targetRotY = 0) ∧
    (0 < s.step →
      (cubeV1SlideChange s false).step + 1 = s.step ∧
      (cubeV1SlideChange s false).targetRotX = -((cubeV1ForwardRot (s.step - 1)).1) ∧
      (cubeV1SlideChange s false).targetRotY = -((cubeV1ForwardRot (s.step - 1)).2)) ∧
    (s.step = 0 →
      cubeV1SlideChange s false = { s with animating := true, progress := 0 }) := by
  unfold cubeV1SlideChange cubeV1ForwardRot
  by_cases he : s.step % 2 = 0 <;> by_cases hz : 0 < s.step
  · have h1 : ¬ ((s.step - 1) % 2 = 0) := by omega
    simp [he, hz, h1]
    omega
  · have h0 : s.step = 0 := by omega
    simp [he, hz, h0]
  · have h1 : (s.step - 1) % 2 = 0 := by omega
    have h2 : ¬ (s.step % 2 = 0) := he
    simp [he, hz, h1]
    omega
  · exfalso
    omega

/-- Witness for C4 (amended) at counter value 2. -/
theorem claim_cube_parity_amended_witness :
    ((cubeV1SlideChange ⟨2, 0, 0, false, 0⟩ true).step = 2 + 1) ∧
    ((cubeV1SlideChange ⟨2, 0, 0, false, 0⟩ true).targetRotX = (cubeV1ForwardRot 2).1 ∧
     (cubeV1SlideChange ⟨2, 0, 0, false, 0⟩ true).targetRotY = (cubeV1ForwardRot 2).2) ∧
    ((2 : ℕ) % 2 = 0 →
      (cubeV1SlideChange ⟨2, 0, 0, false, 0⟩ true).targetRotX = 0 ∧
      (cubeV1SlideChange ⟨2, 0, 0, false, 0⟩ true).targetRotY = -(1/2)) ∧
    ((2 : ℕ) % 2 = 1 →
      (cubeV1SlideChange ⟨2, 0, 0, false, 0⟩ true).targetRotX = 1/2 ∧
      (cubeV1SlideChange ⟨2, 0, 0, false, 0⟩ true).targetRotY = 0) ∧
    ((0 : ℕ) < 2 →
      (cubeV1SlideChange ⟨2, 0, 0, false, 0⟩ false).step + 1 = 2 ∧
      (cubeV1SlideChange ⟨2, 0, 0, false, 0⟩ false).targetRotX = -((cubeV1ForwardRot 1).1) ∧
      (cubeV1SlideChange ⟨2, 0, 0, false, 0⟩ false).targetRotY = -((cubeV1ForwardRot 1).2)) ∧
    ((2 : ℕ) = 0 →
      cubeV1SlideChange ⟨2, 0, 0, false, 0⟩ false = ⟨2, 0, 0, true, 0⟩) :=
  claim_cube_parity_amended ⟨2, 0, 0, false, 0⟩

/-- C5: cover-fit crops the wider dimension symmetrically, is the identity
crop on matching aspects, and maps `(2, 1)` to
`scaleU = 1/2, offsetU = 1/4, scaleV = 1, offsetV = 0`. -/
theorem claim_coverfit (sourceAspect targetAspect : ℚ)
    (hs : 0 < sourceAspect) (ht : 0 < targetAspect) :
    (targetAspect < sourceAspect →
      calculateCoverUV sourceAspect targetAspect =
        { scaleU := targetAspect / sourceAspect
          scaleV := 1
          offsetU := (1 - targetAspect / sourceAspect) / 2
          offsetV := 0 }) ∧
    (sourceAspect ≤ targetAspect →
      calculateCoverUV sourceAspect targetAspect =
        { scaleU := 1
          scaleV := sourceAspect / targetAspect
          offsetU := 0
          offsetV := (1 - sourceAspect / targetAspect) / 2 }) ∧
    calculateCoverUV 2 1 = { scaleU := 1/2, scaleV := 1, offsetU := 1/4, offsetV := 0 } ∧
    calculateCoverUV sourceAspect sourceAspect =
      { scaleU := 1, scaleV := 1, offsetU := 0, offsetV := 0 } := by
  refine ⟨?_, ?_, ?_, ?_⟩
  · intro h
    unfold calculateCoverUV
    rw [if_pos h]
  · intro h
    unfold calculateCoverUV
    rw [if_neg (not_lt.mpr h)]
  · norm_num [calculateCoverUV]
  · unfold calculateCoverUV
    rw [if_neg (lt_irrefl sourceAspect)]
    simp [div_self (ne_of_gt hs)]

/-- Witness for C5 at aspects `(2, 1)`. -/
theorem claim_coverfit_witness :
    (0 : ℚ) < 2 ∧ (0 : ℚ) < 1 ∧
    (((1 : ℚ) < 2 →
      calculateCoverUV 2 1 =
        { scaleU := 1 / 2
          scaleV := 1
          offsetU := (1 - 1 / 2) / 2
          offsetV := 0 }) ∧
    ((2 : ℚ) ≤ 1 →
      calculateCoverUV 2 1 =
        { scaleU := 1
          scaleV := 2 / 1
          offsetU := 0
          offsetV := (1 - 2 / 1) / 2 }) ∧
    calculateCoverUV 2 1 = { scaleU := 1/2, scaleV := 1, offsetU := 1/4, offsetV := 0 } ∧
    calculateCoverUV 2 2 = { scaleU := 1, scaleV := 1, offsetU := 0, offsetV := 0 }) :=
  ⟨by norm_num, by norm_num, claim_coverfit 2 1 (by norm_num) (by norm_num)⟩

/-- C6 counterexample: at `minTiles = 1` and `aspectRatio = 2` the claim
predicts `rows = minTiles = 1`, but the code clamps `safeTiles` to
`max(2, minTiles)` and returns `rows = 2`. -/
theorem claim_grid_counterexample :
    (0 : ℚ) < 2 ∧ (calculateGridDimensions 2 1).rows = 2 ∧
    (calculateGridDimensions 2 1).rows ≠ 1 := by
  refine ⟨by norm_num, ?_, ?_⟩ <;>
    norm_num [calculateGridDimensions, jsRound, Int.floor_eq_iff]

/-- C6 (amended): for `aspectRatio > 0` and `minTiles ≥ 2`, the cascade
grid gives the shorter dimension exactly `minTiles` and the longer
dimension `round(minTiles × aspectRatio)` (landscape) or
`round(minTiles / aspectRatio)` (portrait); `rows, cols ≥ 2` always (even
for `minTiles < 2`, via `safeTiles = max(2, minTiles)`); `minTiles = 10`
with `aspectRatio = 2` yields `rows = 10, cols = 20`, and with
`aspectRatio = 1/2` yields `cols = 10, rows = 20`. -/
theorem claim_grid_amended (a : ℚ) (m : ℤ) (ha : 0 < a) (hm : 2 ≤ m) :
    (1 ≤ a →
      (calculateGridDimensions a m).rows = m ∧
      (calculateGridDimensions a m).cols = jsRound ((m : ℚ) * a) ∧
      (calculateGridDimensions a m).rows ≤ (calculateGridDimensions a m).cols) ∧
    (a < 1 →
      (calculateGridDimensions a m).cols = m ∧
      (calculateGridDimensions a m).rows = jsRound ((m : ℚ) / a) ∧
      (calculateGridDimensions a m).cols ≤ (calculateGridDimensions a m).rows) ∧
    2 ≤ (calculateGridDimensions a m).rows ∧
    2 ≤ (calculateGridDimensions a m).cols ∧
    calculateGridDimensions 2 10 = { rows := 10, cols := 20 } ∧
    calculateGridDimensions (1/2) 10 = { rows := 20, cols := 10 } := by
  have hmq : (2 : ℚ) ≤ (m : ℚ) := by exact_mod_cast hm
  have hsafe : max 2 m = m := max_eq_right hm
  refine ⟨?_, ?_, ?_, ?_, ?_, ?_⟩
  · intro h1
    have hkey : m ≤ jsRound ((m : ℚ) * a) := by
      unfold jsRound
      rw [Int.le_floor]
      nlinarith
    have hres : calculateGridDimensions a m
        = { rows := m, cols := max 2 (jsRound ((m : ℚ) * a)) } := by
      simp only [calculateGridDimensions, hsafe, h1, if_true]
    rw [hres, max_eq_right (by omega : (2 : ℤ) ≤ jsRound ((m : ℚ) * a))]
    exact ⟨rfl, rfl, hkey⟩
  · intro h1
    have hkey : m ≤ jsRound ((m : ℚ) / a) := by
      unfold jsRound
      rw [Int.le_floor]
      have hdiv : (m : ℚ) ≤ (m : ℚ) / a := by
        rw [le_div_iff₀ ha]
        nlinarith
      linarith
    have hres : calculateGridDimensions a m
        = { rows := max 2 (jsRound ((m : ℚ) / a)), cols := m } := by
      simp only [calculateGridDimensions, hsafe, if_neg (not_le.mpr h1)]
    rw [hres, max_eq_right (by omega : (2 : ℤ) ≤ jsRound ((m : ℚ) / a))]
    exact ⟨rfl, rfl, hkey⟩
  · unfold calculateGridDimensions
    split_ifs <;> simp [le_max_left]
  · unfold calculateGridDimensions
    split_ifs <;> simp [le_max_left]
  · norm_num [calculateGridDimensions, jsRound, GridDims.mk.injEq, Int.floor_eq_iff]
  · norm_num [calculateGridDimensions, jsRound, GridDims.mk.injEq, Int.floor_eq_iff]

/-- Witness for C6 (amended) at `aspectRatio = 2, minTiles = 10`. -/
theorem claim_grid_amended_witness :
    (0 : ℚ) < 2 ∧ (2 : ℤ) ≤ 10 ∧
    (((1 : ℚ) ≤ 2 →
      (calculateGridDimensions 2 10).rows = 10 ∧
      (calculateGridDimensions 2 10).cols = jsRound ((10 : ℚ) * 2) ∧
      (calculateGridDimensions 2 10).rows ≤ (calculateGridDimensions 2 10).cols) ∧
    ((2 : ℚ) < 1 →
      (calculateGridDimensions 2 10).cols = 10 ∧
      (calculateGridDimensions 2 10).rows = jsRound ((10 : ℚ) / 2) ∧
      (calculateGridDimensions 2 10).cols ≤ (calculateGridDimensions 2 10).rows) ∧
    2 ≤ (calculateGridDimensions 2 10).rows ∧
    2 ≤ (calculateGridDimensions 2 10).cols ∧
    calculateGridDimensions 2 10 = { rows := 10, cols := 20 } ∧
    calculateGridDimensions (1/2) 10 = { rows := 20, cols := 10 }) :=
  ⟨by norm_num, by norm_num, claim_grid_amended 2 10 (by norm_num) (by norm_num)⟩

/-- C7: each frame adds `delta × (1000/transitionDuration) ×
styleSpeedConstant` to `progress` (constant 1 for the cube, `6/5` for the
cascade) clamped at 1, never exceeding 1 for any delta; with
`transitionDuration = 800` ms and a single 2000 ms (2 s) frame delta,
progress after one update is exactly 1 in both machines. -/
theorem claim_progress_clamp :
    ∀ transitionDuration progress delta : ℚ,
      cubeProgressUpdate transitionDuration progress delta ≤ 1 ∧
      cubeProgressUpdate transitionDuration progress delta
        = min (progress + delta * (1000 / transitionDuration) * 1) 1 ∧
      cascadeProgressUpdate transitionDuration progress delta ≤ 1 ∧
      cascadeProgressUpdate transitionDuration progress delta
        = min (progress + delta * (1000 / transitionDuration) * (6/5)) 1 ∧
      cubeProgressUpdate 800 0 2 = 1 ∧
      cascadeProgressUpdate 800 0 2 = 1 := by
  intro duration p delta
  refine ⟨min_le_right _ _, ?_, min_le_right _ _, ?_, ?_, ?_⟩
  · unfold cubeProgressUpdate
    congr 1
    ring
  · unfold cascadeProgressUpdate ANIMATION_SPEED
    congr 1
    ring
  · rw [show (1 : ℚ) = min (0 + 2 * ((1 / 800) * 1000)) 1 by norm_num]
    rfl
  · rw [show (1 : ℚ) = min (0 + 2 * (ANIMATION_SPEED * (1000 / 800) * (4/5))) 1 by norm_num [ANIMATION_SPEED]]
    rfl

/-- C8: invalid navigation requests are silently ignored: `next()` at the
last index with `loop = false`, `prev()` at index 0 with `loop = false`,
and `goTo(index)` out of range each leave the hook state (including
`currentIndex` and `direction`) unchanged and fire no `onSlideChange`. -/
theorem claim_invalid_nav_ignored (totalSlides : ℕ) (s : HookState) :
    (s.currentIndex = totalSlides - 1 →
      hookNext false totalSlides s = s ∧
      firesOnSlideChange s (hookNext false totalSlides s) = false) ∧
    (s.currentIndex = 0 →
      hookPrev false totalSlides s = s ∧
      firesOnSlideChange s (hookPrev false totalSlides s) = false) ∧
    (∀ index : ℤ, index < 0 ∨ (totalSlides : ℤ) ≤ index →
      hookGoTo totalSlides index s = s ∧
      firesOnSlideChange s (hookGoTo totalSlides index s) = false) := by
  refine ⟨?_, ?_, ?_⟩
  · intro h
    have hcg : canGoNext false totalSlides s = false := by
      simp [canGoNext, h]
    have heq : hookNext false totalSlides s = s := by
      simp [hookNext, hcg]
    exact ⟨heq, by simp [firesOnSlideChange, heq]⟩
  · intro h
    have hcg : canGoPrev false s = false := by
      simp [canGoPrev, h]
    have heq : hookPrev false totalSlides s = s := by
      simp [hookPrev, hcg]
    exact ⟨heq, by simp [firesOnSlideChange, heq]⟩
  · intro idx hidx
    have heq : hookGoTo totalSlides idx s = s := by
      simp [hookGoTo, hidx]
    exact ⟨heq, by simp [firesOnSlideChange, heq]⟩

/-- Witness for C8 with 3 slides at index 2 (the last index). -/
theorem claim_invalid_nav_ignored_witness :
    ((2 : ℕ) = 3 - 1 →
      hookNext false 3 ⟨2, NavDirection.next⟩ = ⟨2, NavDirection.next⟩ ∧
      firesOnSlideChange ⟨2, NavDirection.next⟩
        (hookNext false 3 ⟨2, NavDirection.next⟩) = false) ∧
    ((2 : ℕ) = 0 →
      hookPrev false 3 ⟨2, NavDirection.next⟩ = ⟨2, NavDirection.next⟩ ∧
      firesOnSlideChange ⟨2, NavDirection.next⟩
        (hookPrev false 3 ⟨2, NavDirection.next⟩) = false) ∧
    (∀ index : ℤ, index < 0 ∨ (3 : ℤ) ≤ index →
      hookGoTo 3 index ⟨2, NavDirection.next⟩ = ⟨2, NavDirection.next⟩ ∧
      firesOnSlideChange ⟨2, NavDirection.next⟩
        (hookGoTo 3 index ⟨2, NavDirection.next⟩) = false) :=
  claim_invalid_nav_ignored 3 ⟨2, NavDirection.next⟩

/-- C9: when the capability gate reports WebGL unavailable the mount effect
invokes `onWebGLUnsupported` exactly once (and never when available), and
the fallback presentation gives the slide at `currentIndex` opacity 1 and
every other slide opacity 0. -/
theorem claim_webgl_fallback (numSlides currentIndex : ℕ)
    (hci : currentIndex < numSlides) :
    (slideshowMountEffect false).unsupportedCalls = 1 ∧
    (slideshowMountEffect false).webglAvailable = false ∧
    (slideshowMountEffect true).unsupportedCalls = 0 ∧
    (renderFallback numSlides currentIndex).length = numSlides ∧
    (∀ j, ∀ hj : j < (renderFallback numSlides currentIndex).length,
      (((renderFallback numSlides currentIndex).get ⟨j, hj⟩).opacity = 1 ↔
        j = currentIndex) ∧
      (((renderFallback numSlides currentIndex).get ⟨j, hj⟩).opacity = 0 ↔
        j ≠ currentIndex)) := by
  refine ⟨rfl, rfl, rfl, by simp [renderFallback], ?_⟩
  intro j hj
  have hjn : j < numSlides := by
    simpa [renderFallback] using hj
  constructor
  · simp only [renderFallback, List.get_eq_getElem, List.getElem_map,
      List.getElem_range, renderFallbackSlide]
    split_ifs with h <;> simp [h]
  · simp only [renderFallback, List.get_eq_getElem, List.getElem_map,
      List.getElem_range, renderFallbackSlide]
    split_ifs with h <;> simp [h]

/-- Witness for C9 with 3 slides at index 1. -/
theorem claim_webgl_fallback_witness :
    (1 : ℕ) < 3 ∧
    ((slideshowMountEffect false).unsupportedCalls = 1 ∧
    (slideshowMountEffect false).webglAvailable = false ∧
    (slideshowMountEffect true).unsupportedCalls = 0 ∧
    (renderFallback 3 1).length = 3 ∧
    (∀ j, ∀ hj : j < (renderFallback 3 1).length,
      (((renderFallback 3 1).get ⟨j, hj⟩).opacity = 1 ↔ j = 1) ∧
      (((renderFallback 3 1).get ⟨j, hj⟩).opacity = 0 ↔ j ≠ 1))) :=
  ⟨by norm_num, claim_webgl_fallback 3 1 (by norm_num)⟩

/-- C10: the shared cubic ease-in-out fixes 0 and 1, is monotone
nondecreasing on `[0, 1]`, maps `[0, 1]` into `[0, 1]`, and at step
completion (`progress = 1`) the applied rotation `rotAngle × ease(1)`
equals the full target angle. -/
theorem claim_easing (a b t : ℚ) (h0 : 0 ≤ a) (hab : a ≤ b) (hb1 : b ≤ 1)
    (ht0 : 0 ≤ t) (ht1 : t ≤ 1) :
    easeInOutCubic 0 = 0 ∧ easeInOutCubic 1 = 1 ∧
    easeInOutCubic a ≤ easeInOutCubic b ∧
    0 ≤ easeInOutCubic t ∧ easeInOutCubic t ≤ 1 ∧
    (∀ s : CubeState, s.rotAngle * easeInOutCubic 1 = s.rotAngle) :=
  ⟨easeInOutCubic_zero, easeInOutCubic_one, easeInOutCubic_mono h0 hab hb1,
   easeInOutCubic_nonneg ht0 ht1, easeInOutCubic_le_one ht0 ht1,
   fun s => by rw [easeInOutCubic_one, mul_one]⟩

/-- Witness for C10 at `a = 0, b = 1, t = 1/2`. -/
theorem claim_easing_witness :
    (0 : ℚ) ≤ 0 ∧ (0 : ℚ) ≤ 1 ∧ (1 : ℚ) ≤ 1 ∧ (0 : ℚ) ≤ 1/2 ∧ (1/2 : ℚ) ≤ 1 ∧
    (easeInOutCubic 0 = 0 ∧ easeInOutCubic 1 = 1 ∧
    easeInOutCubic 0 ≤ easeInOutCubic 1 ∧
    0 ≤ easeInOutCubic (1/2) ∧ easeInOutCubic (1/2) ≤ 1 ∧
    (∀ s : CubeState, s.rotAngle * easeInOutCubic 1 = s.rotAngle)) :=
  ⟨by norm_num, by norm_num, by norm_num, by norm_num, by norm_num,
   claim_easing 0 1 (1/2) (by norm_num) (by norm_num) (by norm_num)
     (by norm_num) (by norm_num)⟩

end Slideshow
